import Mathlib

/-!
Shallow embedding of `src/scanner/apiService.js` from the jenkins-action
repository, together with proofs about its report-transformation,
aggregation and upload logic.

JavaScript values that the code inspects for truthiness are modelled by
`JVal` (absent/undefined, string, or number); JS objects become Lean
structures whose possibly-absent array fields are `Option (List _)`; the
ambient state the module reads (`process.env`, `process.cwd()`) is an
explicit `EnvConfig` parameter; the file system and the JSON parser the
aggregator uses are explicit parameters, so that "throws" becomes an
`Option`/`Except` value. The two report transformers exist in two layers:
a pure layer over well-formed report shapes (object-only arrays), used by
the structural claims, and a widened `...JS` layer whose input types also
represent the malformed shapes on which the source throws (a `null` array
element, a truthy non-array `Misconfigurations`), returning
`Except.error` exactly where the source raises a TypeError.
-/

/-- A JavaScript value as it occurs in the scan-report JSON shapes:
`undef` models `undefined`/absent fields, `str` a string, `num` a number
(report line/column numbers are integers). -/
inductive JVal where
  | undef : JVal
  | str : String → JVal
  | num : Int → JVal
  deriving DecidableEq

/-- JavaScript truthiness for `JVal`: `undefined` is falsy, a string is
truthy iff non-empty, a number is truthy iff non-zero. -/
def JVal.truthy : JVal → Bool
  | .undef => false
  | .str s => s != ""
  | .num n => n != 0

/-- JavaScript `String(v)` coercion. -/
def JVal.jsToString : JVal → String
  | .undef => "undefined"
  | .str s => s
  | .num n => toString n

/-- JavaScript `a || b`. -/
def jsOr (a b : JVal) : JVal := if a.truthy then a else b

/-- A `process.env` entry (`string` or unset) viewed as a `JVal`. -/
def optToJVal : Option String → JVal
  | none => .undef
  | some s => .str s

/-- Truthiness of a `process.env` string entry. -/
def jsTruthyOpt : Option String → Bool
  | none => false
  | some s => s != ""

/-- The ambient state `apiService.js` reads: `process.env` entries and the
working directory `process.cwd()`. -/
structure EnvConfig where
  PROJECT_ID : Option String
  NT_API_KEY : Option String
  NT_SECRET_KEY : Option String
  WORKSPACE : Option String
  cwd : String
  deriving DecidableEq

/-! ### Secret scan transformer (`transformSecretScanResponse`, apiService.js lines 138-170) -/

/-- A raw gitleaks finding as consumed by `transformSecretScanResponse`;
every field may be absent or of either primitive type. -/
structure RawFinding where
  RuleID : JVal
  Rule : JVal
  Description : JVal
  File : JVal
  Match : JVal
  Secret : JVal
  StartLine : JVal
  EndLine : JVal
  StartColumn : JVal
  EndColumn : JVal
  deriving DecidableEq

/-- The transformed secret finding: the four location fields are coerced
with `String(...)` and so are `String` here; the remaining fields keep the
raw (truthy-selected) value unchanged. -/
structure SecretFinding where
  RuleID : JVal
  Description : JVal
  File : JVal
  Match : JVal
  Secret : JVal
  StartLine : String
  EndLine : String
  StartColumn : String
  EndColumn : String
  deriving DecidableEq

/-- The per-finding mapping inside `transformSecretScanResponse`
(apiService.js lines 141-151). -/
def transformOne (f : RawFinding) : SecretFinding :=
  { RuleID := jsOr (jsOr f.RuleID f.Rule) (.str "")
    Description :=
      if f.Description.truthy then f.Description
      else .str ("Detect " ++ (jsOr f.RuleID (.str "secret")).jsToString)
    File := jsOr f.File (.str "")
    Match := jsOr f.Match (.str "")
    Secret := jsOr (jsOr f.Secret f.Match) (.str "")
    StartLine := if f.StartLine.truthy then f.StartLine.jsToString else "0"
    EndLine := if f.EndLine.truthy then f.EndLine.jsToString else "0"
    StartColumn := if f.StartColumn.truthy then f.StartColumn.jsToString else "0"
    EndColumn := if f.EndColumn.truthy then f.EndColumn.jsToString else "0" }

/-- The identity key of a transformed finding, the template literal
`File|Secret|StartLine|EndLine|StartColumn|EndColumn` of line 159. -/
def secretKey (x : SecretFinding) : String :=
  x.File.jsToString ++ "|" ++ x.Secret.jsToString ++ "|" ++ x.StartLine ++ "|" ++
    x.EndLine ++ "|" ++ x.StartColumn ++ "|" ++ x.EndColumn

/-- The deduplication loop of lines 154-165: a `seen` key set and an output
list that keeps the first occurrence of each key. -/
def dedupeAux : List String → List SecretFinding → List SecretFinding
  | _, [] => []
  | seen, x :: xs =>
    if secretKey x ∈ seen then dedupeAux seen xs
    else x :: dedupeAux (secretKey x :: seen) xs

/-- `transformSecretScanResponse` (apiService.js lines 138-170): `[]` on a
null/non-array report, otherwise map then deduplicate by identity key.
This layer covers arrays of objects; an array containing `null`, on which
the source throws at line 142, is represented by the widened
`transformSecretScanResponseJS` below. -/
def transformSecretScanResponse : Option (List RawFinding) → List SecretFinding
  | none => []
  | some l => dedupeAux [] (l.map transformOne)

/-- Re-reading a transformed finding as a raw gitleaks object: the object
literal of lines 141-151 has no `Rule` field, and its location fields are
strings. -/
def toRaw (x : SecretFinding) : RawFinding :=
  { RuleID := x.RuleID
    Rule := .undef
    Description := x.Description
    File := x.File
    Match := x.Match
    Secret := x.Secret
    StartLine := .str x.StartLine
    EndLine := .str x.EndLine
    StartColumn := .str x.StartColumn
    EndColumn := .str x.EndColumn }

/-- A concrete raw gitleaks finding used by the worked 5-entry example. -/
def exFinding (rule file secret : String) (line : Int) : RawFinding :=
  { RuleID := .str rule
    Rule := .undef
    Description := .undef
    File := .str file
    Match := .str secret
    Secret := .str secret
    StartLine := .num line
    EndLine := .num line
    StartColumn := .num 1
    EndColumn := .num 5 }

def exSecret1 : RawFinding := exFinding "rule1" "a.txt" "sec1" 1
def exSecret2 : RawFinding := exFinding "rule2" "b.txt" "sec2" 2
def exSecret3 : RawFinding := exFinding "rule3" "c.txt" "sec3" 3
def exSecret4 : RawFinding := exFinding "rule4" "b.txt" "sec2" 2
def exSecret5 : RawFinding := exFinding "rule5" "d.txt" "sec4" 4

/-- The 5-entry raw list in which entries 2 and 4 share an identity key. -/
def exRawSecrets : List RawFinding :=
  [exSecret1, exSecret2, exSecret3, exSecret4, exSecret5]

/-! ### Config scan transformer (`transformConfigScanResponse`, apiService.js lines 95-131) -/

/-- A raw Trivy misconfiguration entry as read by
`transformConfigScanResponse`. -/
structure RawMisc where
  ID : JVal
  Title : JVal
  Description : JVal
  Message : JVal
  Severity : JVal
  PrimaryURL : JVal
  Query : JVal
  Resolution : JVal
  deriving DecidableEq

/-- The transformed misconfiguration entry (apiService.js lines 110-119). -/
structure MiscDto where
  ID : JVal
  Title : JVal
  Description : JVal
  Message : JVal
  Severity : JVal
  PrimaryURL : JVal
  Query : JVal
  Resolution : JVal
  deriving DecidableEq

/-- One entry of the raw report's `Results` array; `Type'` stands for the
JS field `Type` (a Lean keyword). `Misconfigurations` is `none` when the
field is absent or otherwise falsy — line 103 checks only
`result.Misconfigurations && result.Misconfigurations.length > 0`, there
is no `Array.isArray` check here; a truthy non-array value with a positive
`length` is an error path of the source, represented by the widened
`ConfigResultJS` below. -/
structure ConfigResult where
  Target : JVal
  Class : JVal
  Type' : JVal
  Misconfigurations : Option (List RawMisc)
  deriving DecidableEq

/-- One entry of the DTO's `Results` list (apiService.js lines 106-120). -/
structure ResultDto where
  Target : JVal
  Class : JVal
  Type' : JVal
  Misconfigurations : List MiscDto
  deriving DecidableEq

/-- The raw Trivy config report; `Results` is `none` when absent or not an
array (the code checks `Array.isArray`). -/
structure TrivyConfig where
  ArtifactName : JVal
  ArtifactType : JVal
  Results : Option (List ConfigResult)
  deriving DecidableEq

/-- The `configScanResponseDto` shape returned by the transformer. -/
structure ConfigScanResponseDto where
  ArtifactName : JVal
  ArtifactType : JVal
  Results : List ResultDto
  TotalMisconfigurations : Nat
  deriving DecidableEq

/-- The per-misconfiguration mapping of apiService.js lines 110-119. -/
def mapMisc (m : RawMisc) : MiscDto :=
  { ID := m.ID
    Title := m.Title
    Description := jsOr m.Description (.str "")
    Message := jsOr m.Message (.str "")
    Severity := jsOr m.Severity (.str "UNKNOWN")
    PrimaryURL := jsOr m.PrimaryURL (.str "")
    Query := jsOr m.Query (.str "")
    Resolution := jsOr m.Resolution (.str "") }

/-- The `forEach` loop of apiService.js lines 102-122: walk `Results` in
order, keep each entry with a non-empty `Misconfigurations` array and add
its length to the running total. -/
def processResults : List ConfigResult → List ResultDto × Nat
  | [] => ([], 0)
  | r :: rs =>
    let rest := processResults rs
    match r.Misconfigurations with
    | some (m :: ms) =>
      ({ Target := r.Target
         Class := jsOr r.Class (.str "config")
         Type' := jsOr r.Type' (.str "kubernetes")
         Misconfigurations := (m :: ms).map mapMisc } :: rest.1,
       (m :: ms).length + rest.2)
    | _ => rest

/-- `transformConfigScanResponse` (apiService.js lines 95-131): `null` in,
`null` out; otherwise build the DTO, defaulting `ArtifactName` from the
ambient `WORKSPACE` environment variable and then `process.cwd()`
(line 126). -/
def transformConfigScanResponse (env : EnvConfig) :
    Option TrivyConfig → Option ConfigScanResponseDto
  | none => none
  | some tc =>
    let pr := processResults (tc.Results.getD [])
    some { ArtifactName := jsOr (jsOr tc.ArtifactName (optToJVal env.WORKSPACE)) (.str env.cwd)
           ArtifactType := jsOr tc.ArtifactType (.str "filesystem")
           Results := pr.1
           TotalMisconfigurations := pr.2 }

/-- The number of misconfigurations a raw report carries in total: the sum
over all targets, an absent array counting zero. -/
def inputMisconfigCount (tc : TrivyConfig) : Nat :=
  ((tc.Results.getD []).map (fun r => (r.Misconfigurations.getD []).length)).sum

def envW1 : EnvConfig :=
  { PROJECT_ID := none
    NT_API_KEY := none
    NT_SECRET_KEY := none
    WORKSPACE := some "/workspace-one"
    cwd := "/cwd" }

def envW2 : EnvConfig := { envW1 with WORKSPACE := some "/workspace-two" }

/-- A well-formed report whose `ArtifactName` field is absent. -/
def cfgNoArtifactName : TrivyConfig :=
  { ArtifactName := .undef, ArtifactType := .undef, Results := none }

/-- A report carrying its own (truthy) `ArtifactName`. -/
def cfgNamedArtifact : TrivyConfig :=
  { ArtifactName := .str "repo-artifact", ArtifactType := .undef, Results := none }

/-- A minimal concrete raw misconfiguration. -/
def exMisc (i : String) : RawMisc :=
  { ID := .str i
    Title := .str "title"
    Description := .undef
    Message := .undef
    Severity := .undef
    PrimaryURL := .undef
    Query := .undef
    Resolution := .undef }

/-- A concrete config report: one target with two misconfigurations, one
with an empty array, one with the field absent. -/
def exTrivyConfig : TrivyConfig :=
  { ArtifactName := .str "proj"
    ArtifactType := .str "filesystem"
    Results := some
      [{ Target := .str "k8s.yaml"
         Class := .undef
         Type' := .undef
         Misconfigurations := some [exMisc "KSV001", exMisc "KSV002"] },
       { Target := .str "empty.yaml"
         Class := .undef
         Type' := .undef
         Misconfigurations := some [] },
       { Target := .str "absent.yaml"
         Class := .undef
         Type' := .undef
         Misconfigurations := none }] }

/-! ### The transformers' error paths and side effects (for claim C5)

The source is not total: `gitleaksReport.map(...)` throws a TypeError when
the parsed array contains `null` (property access at line 142), and the
config loop throws when `Misconfigurations` is a truthy non-array with a
positive `length` (the `.map` call at line 110). The widened definitions
below restore those error paths; `transformSecretScanLog` models the one
side effect of the secret transform, the stdout debug line of line 167. -/

/-- An element of the parsed gitleaks array as the `.map` of line 141 sees
it: a JS object, or `null`/`undefined` — property access on the latter
throws. A primitive element (string/number), whose property reads are all
`undefined`, is represented by `obj` with every field `undef`. -/
inductive SecretElem where
  | jsNull : SecretElem
  | obj : RawFinding → SecretElem
  deriving DecidableEq

/-- The `.map` of lines 141-151 over possibly-`null` elements, walking the
array left to right: the first `null` element throws at the
`finding.RuleID` access of line 142. -/
def transformElems : List SecretElem → Except String (List SecretFinding)
  | [] => .ok []
  | .jsNull :: _ => .error "TypeError: cannot read properties of null reading RuleID"
  | .obj f :: rest => (transformElems rest).map (fun ts => transformOne f :: ts)

/-- `transformSecretScanResponse` with the error path restored: the guard
of line 139 still returns `[]` on a null/non-array report, but an array
containing `null` makes the source throw, here `Except.error`. On arrays
of objects it agrees with `transformSecretScanResponse`. -/
def transformSecretScanResponseJS (g : Option (List SecretElem)) :
    Except String (List SecretFinding) :=
  match g with
  | none => .ok []
  | some l => (transformElems l).map (fun ts => dedupeAux [] ts)

/-- The stdout write `transformSecretScanResponse` performs: the
deduplication summary of line 167 (message transliterated), emitted via
`debugLog` exactly when `DEBUG_MODE` is the string `true` (lines 9 and
25-29); the early return of line 139 logs nothing. -/
def transformSecretScanLog (debugMode : Bool) (g : Option (List RawFinding)) : List String :=
  match g with
  | none => []
  | some l =>
    if debugMode then
      ["Secret deduplication: " ++ toString (l.map transformOne).length ++
        " entries to " ++ toString (dedupeAux [] (l.map transformOne)).length ++
        " unique entries"]
    else []

/-- The `Misconfigurations` field as line 103 inspects it: absent or
falsy, a genuine array, or a truthy string — a non-empty string has a
positive `length` (so it passes the guard) but no `.map`, making line 110
throw. -/
inductive MiscField where
  | absent : MiscField
  | arr : List RawMisc → MiscField
  | strVal : String → MiscField
  deriving DecidableEq

/-- `ConfigResult` widened with the non-array `Misconfigurations` shape. -/
structure ConfigResultJS where
  Target : JVal
  Class : JVal
  Type' : JVal
  Misconfigurations : MiscField
  deriving DecidableEq

/-- `TrivyConfig` over the widened result entries. -/
structure TrivyConfigJS where
  ArtifactName : JVal
  ArtifactType : JVal
  Results : Option (List ConfigResultJS)
  deriving DecidableEq

/-- The forEach of apiService.js lines 102-122 with the error path
restored: a truthy non-array `Misconfigurations` throws at the `.map` of
line 110 and the whole transform rejects. -/
def processResultsJS : List ConfigResultJS → Except String (List ResultDto × Nat)
  | [] => .ok ([], 0)
  | r :: rs =>
    match r.Misconfigurations with
    | .arr (m :: ms) =>
      (processResultsJS rs).map (fun rest =>
        ({ Target := r.Target
           Class := jsOr r.Class (.str "config")
           Type' := jsOr r.Type' (.str "kubernetes")
           Misconfigurations := (m :: ms).map mapMisc } :: rest.1,
         (m :: ms).length + rest.2))
    | .strVal s =>
      if s != "" then
        .error "TypeError: result.Misconfigurations.map is not a function"
      else processResultsJS rs
    | _ => processResultsJS rs

/-- `transformConfigScanResponse` with the error path restored; on
well-formed shapes it agrees with `transformConfigScanResponse`. -/
def transformConfigScanResponseJS (env : EnvConfig) :
    Option TrivyConfigJS → Except String (Option ConfigScanResponseDto)
  | none => .ok none
  | some tc =>
    (processResultsJS (tc.Results.getD [])).map (fun pr =>
      some { ArtifactName := jsOr (jsOr tc.ArtifactName (optToJVal env.WORKSPACE)) (.str env.cwd)
             ArtifactType := jsOr tc.ArtifactType (.str "filesystem")
             Results := pr.1
             TotalMisconfigurations := pr.2 })

/-- Well-formed result entries embed into the widened shape. -/
def embedConfigResult (r : ConfigResult) : ConfigResultJS :=
  { Target := r.Target
    Class := r.Class
    Type' := r.Type'
    Misconfigurations :=
      match r.Misconfigurations with
      | none => .absent
      | some ms => .arr ms }

/-- Well-formed reports embed into the widened shape. -/
def embedTrivyConfig (tc : TrivyConfig) : TrivyConfigJS :=
  { ArtifactName := tc.ArtifactName
    ArtifactType := tc.ArtifactType
    Results := tc.Results.map (fun l => l.map embedConfigResult) }

/-- A config report whose only target carries a truthy non-array
`Misconfigurations` (the non-empty string `x`). -/
def cfgStringMisc : TrivyConfigJS :=
  { ArtifactName := .str "proj"
    ArtifactType := .undef
    Results := some
      [{ Target := .str "bad.yaml"
         Class := .undef
         Type' := .undef
         Misconfigurations := .strVal "x" }] }

/-! ### Upload client (`sendToAPI`, apiService.js lines 287-452) -/

/-- The URL built by `sendToAPI` (apiService.js lines 290-295): the
project-scoped path exactly when `PROJECT_ID` is truthy. -/
def fullApiUrl (apiUrl : String) (projectId : Option String) : String :=
  if jsTruthyOpt projectId then
    apiUrl ++ "/open-pulse/project/upload-all/" ++ projectId.getD ""
  else
    apiUrl ++ "/open-pulse/project/upload-all"

/-- The request headers object of apiService.js lines 385-392, as the
ordered key/value list of the JS object literal; `...options.headers` is
appended, a later entry overriding an earlier one with the same key. -/
def requestHeaders (env : EnvConfig) (boundary : String) (contentLength : Nat)
    (extraHeaders : List (String × String)) : List (String × String) :=
  [("Content-Type", "multipart/form-data; boundary=" ++ boundary),
   ("Content-Length", toString contentLength),
   ("User-Agent", "Jenkins-SBOM-Scanner/1.0"),
   ("x-api-key", env.NT_API_KEY.getD ""),
   ("x-secret-key", env.NT_SECRET_KEY.getD "")] ++ extraHeaders

/-- Value of a header key under JS object semantics: the last write wins. -/
def headerValue (hs : List (String × String)) (k : String) : Option String :=
  hs.foldl (fun acc e => if e.1 == k then some e.2 else acc) none

/-- The HTTP request `sendToAPI` issues, reduced to the parts the claims
are about: target URL and headers. -/
structure UploadRequest where
  url : String
  headers : List (String × String)
  deriving DecidableEq

/-- Construction of the upload request inside `sendToAPI` (lines 290-295
and 380-393). -/
def sendToAPIRequest (env : EnvConfig) (apiUrl boundary : String) (contentLength : Nat)
    (extraHeaders : List (String × String)) : UploadRequest :=
  { url := fullApiUrl apiUrl env.PROJECT_ID
    headers := requestHeaders env boundary contentLength extraHeaders }

/-! ### Report aggregator and pipeline (`parseReportFiles`, `processAndSendReports`) -/

/-- The record of four optional parsed reports built by `parseReportFiles`
(apiService.js lines 57-62). -/
structure Reports (α : Type) where
  sbom : Option α
  trivyConfig : Option α
  trivyVuln : Option α
  gitleaks : Option α
  deriving DecidableEq

/-- The file system visible to the aggregator: existing files and their
contents. `none` models `fs.existsSync` returning false. -/
def lookupFile (fs : List (String × String)) (p : String) : Option String :=
  (fs.find? (fun e => e.1 == p)).map (fun e => e.2)

/-- `path.join(outputDir, name)` for the four well-known report names. -/
def pathJoin (d f : String) : String := d ++ "/" ++ f

/-- One iteration of the parse loop (apiService.js lines 73-85): a missing
file yields `none` silently; an existing file whose contents fail to parse
yields `none` together with an error-log line (the `catch` branch).
Parsing is abstract (`parse`), with `none` standing for a thrown
`JSON.parse` error. -/
def parseOne {α : Type} (parse : String → Option α) (fs : List (String × String))
    (key p : String) : Option α × List String :=
  match lookupFile fs p with
  | none => (none, [])
  | some content =>
    match parse content with
    | some doc => (some doc, [])
    | none => (none, ["Error parsing " ++ key ++ " report (" ++ p ++ ")"])

/-- The four report keys and file paths of apiService.js lines 65-70. -/
def reportFilePaths (outputDir : String) : List (String × String) :=
  [("sbom", pathJoin outputDir "cyclonedx.json"),
   ("trivyConfig", pathJoin outputDir "trivy-config-report.json"),
   ("trivyVuln", pathJoin outputDir "trivy-vuln-report.json"),
   ("gitleaks", pathJoin outputDir "gitleaks-report.json")]

/-- `parseReportFiles` (apiService.js lines 54-88): parse the four
well-known files, collecting error-log lines; every path returns a record
of four optional documents. -/
def parseReportFiles {α : Type} (parse : String → Option α) (fs : List (String × String))
    (outputDir : String) : Reports α × List String :=
  let sb := parseOne parse fs "sbom" (pathJoin outputDir "cyclonedx.json")
  let tc := parseOne parse fs "trivyConfig" (pathJoin outputDir "trivy-config-report.json")
  let tv := parseOne parse fs "trivyVuln" (pathJoin outputDir "trivy-vuln-report.json")
  let gl := parseOne parse fs "gitleaks" (pathJoin outputDir "gitleaks-report.json")
  ({ sbom := sb.1, trivyConfig := tc.1, trivyVuln := tv.1, gitleaks := gl.1 },
   sb.2 ++ tc.2 ++ tv.2 ++ gl.2)

/-- The `hasReports` check of apiService.js line 738: some entry non-null. -/
def hasReports {α : Type} (r : Reports α) : Bool :=
  r.sbom.isSome || r.trivyConfig.isSome || r.trivyVuln.isSome || r.gitleaks.isSome

/-- `processAndSendReports` (apiService.js lines 732-754) up to the point
where the network takes over: parse the reports, throw
`No valid reports found to send` when all four are null, and otherwise
construct the single HTTP upload request that `sendToAPI` then issues.
The `Except.error` branch constructs no request. -/
def processAndSendReports {α : Type} (parse : String → Option α) (fs : List (String × String))
    (outputDir apiUrl : String) (env : EnvConfig) (boundary : String) (contentLength : Nat)
    (extraHeaders : List (String × String)) : Except String UploadRequest :=
  let reports := (parseReportFiles parse fs outputDir).1
  if hasReports reports then
    Except.ok (sendToAPIRequest env apiUrl boundary contentLength extraHeaders)
  else
    Except.error "No valid reports found to send"

/-! ### Console table (`createFormattedTable`, apiService.js lines 457-510) -/

/-- `truncateText` inside `createFormattedTable` (apiService.js lines
480-485). Cell text is modelled as its character list; widths are `Int`
because the JS arithmetic `maxWidth - 2` may go negative. JS
`substring(0, n)` clamps a negative `n` to `0`, hence `Int.toNat`. -/
def truncateText (text : List Char) (maxWidth : Int) : List Char :=
  let availableWidth := maxWidth - 2
  if (text.length : Int) ≤ availableWidth then text
  else text.take (availableWidth - 3).toNat ++ "...".toList

/-- The column-width computation of apiService.js lines 471-477 for one
column: `min (max headerWidth maxRowWidth + 2) maxAllowed`, where
`maxRowWidth` is the maximum cell length of the column (the fold's `0`
base is harmless: lengths are non-negative and the table is only rendered
with at least one row). -/
def computeColWidth (header : List Char) (column : List (List Char)) (maxAllowed : Int) : Int :=
  let headerWidth : Int := header.length
  let maxRowWidth : Int := (column.map (fun c => (c.length : Int))).foldl max 0
  min (max headerWidth maxRowWidth + 2) maxAllowed

/-! ### Helper lemmas -/

theorem detect_ne_empty (s : String) : ("Detect " ++ s) ≠ "" := by
  intro h
  have hd : ("Detect " ++ s).data = 'D' :: ("etect " ++ s).data := rfl
  rw [h] at hd
  simp [String.data] at hd

theorem toDigitsCore_length_le (b : Nat) : ∀ (f n : Nat) (ds : List Char),
    ds.length ≤ (Nat.toDigitsCore b f n ds).length := by
  intro f
  induction f with
  | zero => intro n ds; simp [Nat.toDigitsCore]
  | succ f ih =>
    intro n ds
    simp only [Nat.toDigitsCore]
    split
    · simp
    · exact le_trans (by simp) (ih _ _)

theorem nat_repr_ne_empty (n : Nat) : Nat.repr n ≠ "" := by
  intro h
  have hd : (Nat.repr n).data = Nat.toDigits 10 n := rfl
  rw [h] at hd
  have hnil : Nat.toDigits 10 n = [] := hd.symm
  unfold Nat.toDigits at hnil
  revert hnil
  simp only [Nat.toDigitsCore]
  split
  · simp
  · intro h2
    have := toDigitsCore_length_le 10 n (n / 10) [Nat.digitChar (n % 10)]
    rw [h2] at this
    simp at this

theorem int_toString_ne_empty (n : Int) : toString n ≠ "" := by
  cases n with
  | ofNat m => exact nat_repr_ne_empty m
  | negSucc m =>
    intro h
    have hd : (toString (Int.negSucc m)).data = '-' :: (Nat.repr (m+1)).data := rfl
    rw [h] at hd
    simp [String.data] at hd

theorem truthy_str_empty : (JVal.str "").truthy = false := by decide

theorem truthy_undef : JVal.undef.truthy = false := rfl

theorem jsOr_of_truthy {a : JVal} (b : JVal) (h : a.truthy = true) : jsOr a b = a := by
  simp [jsOr, h]

theorem jsOr_of_falsy {a : JVal} (b : JVal) (h : a.truthy = false) : jsOr a b = b := by
  simp [jsOr, h]

theorem normEmpty_cases (v : JVal) :
    (jsOr v (.str "") = v ∧ v.truthy = true) ∨ jsOr v (.str "") = .str "" := by
  by_cases h : v.truthy
  · exact Or.inl ⟨jsOr_of_truthy _ h, h⟩
  · exact Or.inr (jsOr_of_falsy _ (by simpa using h))

theorem jsOr_empty_undef_empty (v : JVal) :
    jsOr (jsOr (jsOr v (.str "")) .undef) (.str "") = jsOr v (.str "") := by
  rcases normEmpty_cases v with ⟨he, ht⟩ | he <;> rw [he]
  · rw [jsOr_of_truthy _ ht, jsOr_of_truthy _ ht]
  · rw [jsOr_of_falsy _ truthy_str_empty, jsOr_of_falsy _ (by decide)]

theorem jsOr_empty_idem (v : JVal) :
    jsOr (jsOr v (.str "")) (.str "") = jsOr v (.str "") := by
  rcases normEmpty_cases v with ⟨he, ht⟩ | he <;> rw [he]
  · exact jsOr_of_truthy _ ht
  · exact jsOr_of_falsy _ truthy_str_empty

theorem jsOr_secret_idem (s m : JVal) :
    jsOr (jsOr (jsOr (jsOr s m) (.str "")) (jsOr m (.str ""))) (.str "") =
      jsOr (jsOr s m) (.str "") := by
  by_cases hs : s.truthy <;> by_cases hm : m.truthy <;>
    simp [jsOr, hs, hm, truthy_str_empty]

theorem lineField_ne_empty (v : JVal) : (if v.truthy then v.jsToString else "0") ≠ "" := by
  by_cases h : v.truthy
  · rw [if_pos h]
    cases v with
    | undef => simp [JVal.truthy] at h
    | str s => simpa [JVal.truthy, JVal.jsToString] using h
    | num n => exact int_toString_ne_empty n
  · rw [if_neg h]; decide

theorem transformOne_desc_truthy (f : RawFinding) :
    (transformOne f).Description.truthy = true := by
  show (if f.Description.truthy then f.Description
      else .str ("Detect " ++ (jsOr f.RuleID (.str "secret")).jsToString)).truthy = true
  by_cases h : f.Description.truthy
  · rw [if_pos h]; exact h
  · rw [if_neg h]
    simpa [JVal.truthy] using detect_ne_empty ((jsOr f.RuleID (.str "secret")).jsToString)

/-- The per-finding mapping is idempotent: re-reading a transformed
finding as a raw one and transforming again changes nothing. -/
theorem transformOne_toRaw (f : RawFinding) :
    transformOne (toRaw (transformOne f)) = transformOne f := by
  simp only [transformOne, toRaw, SecretFinding.mk.injEq]
  refine ⟨jsOr_empty_undef_empty _, ?_, jsOr_empty_idem _, jsOr_empty_idem _,
    jsOr_secret_idem _ _, ?_, ?_, ?_, ?_⟩
  · have hdesc := transformOne_desc_truthy f
    simp only [transformOne] at hdesc
    rw [if_pos hdesc]
  · rw [if_pos (by simpa [JVal.truthy] using lineField_ne_empty f.StartLine)]
    simp [JVal.jsToString]
  · rw [if_pos (by simpa [JVal.truthy] using lineField_ne_empty f.EndLine)]
    simp [JVal.jsToString]
  · rw [if_pos (by simpa [JVal.truthy] using lineField_ne_empty f.StartColumn)]
    simp [JVal.jsToString]
  · rw [if_pos (by simpa [JVal.truthy] using lineField_ne_empty f.EndColumn)]
    simp [JVal.jsToString]

/-- The deduplicated list is a sublist of the input (order preserved). -/
theorem dedupeAux_sublist : ∀ (l : List SecretFinding) (seen : List String),
    List.Sublist (dedupeAux seen l) l := by
  intro l
  induction l with
  | nil => intro seen; simp [dedupeAux]
  | cons x xs ih =>
    intro seen
    simp only [dedupeAux]
    split
    · exact (ih seen).trans (List.sublist_cons_self x xs)
    · exact List.Sublist.cons₂ x (ih _)

/-- Membership in the deduplicated list characterised: exactly the first
occurrence of each identity key not already seen. -/
theorem mem_dedupeAux : ∀ (l : List SecretFinding) (seen : List String) (x : SecretFinding),
    x ∈ dedupeAux seen l ↔
      (secretKey x ∉ seen ∧ l.find? (fun y => secretKey y == secretKey x) = some x) := by
  intro l
  induction l with
  | nil => intro seen x; simp [dedupeAux]
  | cons a xs ih =>
    intro seen x
    simp only [dedupeAux]
    by_cases ha : secretKey a ∈ seen
    · rw [if_pos ha, ih]
      constructor
      · rintro ⟨hns, hf⟩
        have hne : ¬(secretKey a == secretKey x) = true := by
          simp only [beq_iff_eq]
          intro he
          exact hns (he ▸ ha)
        exact ⟨hns, by
          rw [List.find?_cons_of_neg (p := fun y => secretKey y == secretKey x) _ hne]
          exact hf⟩
      · rintro ⟨hns, hf⟩
        have hne : ¬(secretKey a == secretKey x) = true := by
          simp only [beq_iff_eq]
          intro he
          exact hns (he ▸ ha)
        rw [List.find?_cons_of_neg (p := fun y => secretKey y == secretKey x) _ hne] at hf
        exact ⟨hns, hf⟩
    · rw [if_neg ha]
      by_cases hxa : x = a
      · subst hxa
        simp only [List.mem_cons, true_or, true_iff]
        exact ⟨ha, by
          rw [List.find?_cons_of_pos (p := fun y => secretKey y == secretKey x) _ (by simp)]⟩
      · by_cases hk : secretKey x = secretKey a
        · constructor
          · intro hmem
            rcases List.mem_cons.mp hmem with h | h
            · exact absurd h hxa
            · have := (ih _ x).mp h
              exact absurd (hk ▸ List.mem_cons_self _ _) this.1
          · rintro ⟨hns, hf⟩
            rw [List.find?_cons_of_pos (p := fun y => secretKey y == secretKey x) _
              (by simp [hk])] at hf
            exact absurd (Option.some.inj hf).symm hxa
        · rw [List.mem_cons, ih]
          have hne : ¬(secretKey a == secretKey x) = true := by
            simp only [beq_iff_eq]
            intro he
            exact hk he.symm
          rw [List.find?_cons_of_neg (p := fun y => secretKey y == secretKey x) _ hne]
          constructor
          · rintro (h | ⟨hns, hf⟩)
            · exact absurd h hxa
            · exact ⟨fun hmem => hns (List.mem_cons_of_mem _ hmem), hf⟩
          · rintro ⟨hns, hf⟩
            refine Or.inr ⟨?_, hf⟩
            intro hmem
            rcases List.mem_cons.mp hmem with h | h
            · exact hk h
            · exact hns h

/-- Deduplicating twice with the same seen set is the same as once. -/
theorem dedupeAux_idem : ∀ (l : List SecretFinding) (seen : List String),
    dedupeAux seen (dedupeAux seen l) = dedupeAux seen l := by
  intro l
  induction l with
  | nil => intro seen; simp [dedupeAux]
  | cons x xs ih =>
    intro seen
    simp only [dedupeAux]
    by_cases h : secretKey x ∈ seen
    · rw [if_pos h]
      exact ih seen
    · rw [if_neg h]
      simp only [dedupeAux, if_neg h]
      rw [ih]

/-- Every element of a deduplicated transform output is a fixed point of
the round-trip through `toRaw`. -/
theorem dedupe_map_transform (raws : List RawFinding) :
    (dedupeAux [] (raws.map transformOne)).map (fun x => transformOne (toRaw x)) =
      dedupeAux [] (raws.map transformOne) := by
  have hmem : ∀ x ∈ dedupeAux [] (raws.map transformOne),
      (fun x => transformOne (toRaw x)) x = id x := by
    intro x hx
    have hx2 : x ∈ raws.map transformOne := (dedupeAux_sublist _ _).mem hx
    obtain ⟨r, _, rfl⟩ := List.mem_map.mp hx2
    exact transformOne_toRaw r
  rw [List.map_congr_left hmem, List.map_id]

theorem processResults_total (l : List ConfigResult) :
    (processResults l).2 = (l.map (fun r => (r.Misconfigurations.getD []).length)).sum := by
  induction l with
  | nil => rfl
  | cons r rs ih =>
    simp only [processResults, List.map_cons, List.sum_cons]
    match h : r.Misconfigurations with
    | some (m :: ms) => simp [h, ih]
    | some [] => simp [h, ih]
    | none => simp [h, ih]

theorem processResults_nonempty (l : List ConfigResult) :
    ∀ d ∈ (processResults l).1, d.Misconfigurations ≠ [] := by
  induction l with
  | nil => intro d hd; simp [processResults] at hd
  | cons r rs ih =>
    intro d hd
    simp only [processResults] at hd
    match h : r.Misconfigurations with
    | some (m :: ms) =>
      rw [h] at hd
      rcases List.mem_cons.mp hd with he | he
      · subst he; simp
      · exact ih d he
    | some [] => rw [h] at hd; exact ih d hd
    | none => rw [h] at hd; exact ih d hd

theorem processResults_total_eq_output (l : List ConfigResult) :
    (processResults l).2 =
      ((processResults l).1.map (fun d => d.Misconfigurations.length)).sum := by
  induction l with
  | nil => rfl
  | cons r rs ih =>
    simp only [processResults]
    match h : r.Misconfigurations with
    | some (m :: ms) => simp [ih]
    | some [] => simp [ih]
    | none => simp [ih]

theorem headerValue_append_no_key (k : String) :
    ∀ (hs : List (String × String)) (acc : Option String),
      (∀ e ∈ hs, e.1 ≠ k) →
      hs.foldl (fun acc e => if e.1 == k then some e.2 else acc) acc = acc := by
  intro hs
  induction hs with
  | nil => intro acc _; rfl
  | cons e es ih =>
    intro acc h
    have hne : ¬(e.1 == k) = true := by
      simp only [beq_iff_eq]
      exact h e (List.mem_cons_self _ _)
    simp only [List.foldl_cons, if_neg hne]
    exact ih acc (fun f hf => h f (List.mem_cons_of_mem _ hf))

theorem parseOne_fst {α : Type} (parse : String → Option α) (fs : List (String × String))
    (key p : String) : (parseOne parse fs key p).1 = (lookupFile fs p).bind parse := by
  unfold parseOne
  match h : lookupFile fs p with
  | none => simp
  | some c =>
    match hc : parse c with
    | none => simp [hc]
    | some d => simp [hc]

theorem parseOne_log {α : Type} (parse : String → Option α) (fs : List (String × String))
    (key p content : String) (h1 : lookupFile fs p = some content)
    (h2 : parse content = none) :
    (parseOne parse fs key p).2 = ["Error parsing " ++ key ++ " report (" ++ p ++ ")"] := by
  unfold parseOne
  rw [h1]
  simp [h2]

theorem foldl_max_init (l : List Int) : ∀ a : Int, a ≤ l.foldl max a := by
  induction l with
  | nil => intro a; simp
  | cons b bs ih =>
    intro a
    simp only [List.foldl_cons]
    exact le_trans (le_max_left a b) (ih (max a b))

theorem le_foldl_max (l : List Int) : ∀ (a : Int), ∀ x ∈ l, x ≤ l.foldl max a := by
  induction l with
  | nil => intro a x hx; simp at hx
  | cons b bs ih =>
    intro a x hx
    rcases List.mem_cons.mp hx with rfl | h
    · exact le_trans (le_max_right a x) (foldl_max_init bs (max a x))
    · exact ih (max a b) x h

/-- On object-only arrays the widened element map never errors and agrees
with the pure per-finding map. -/
theorem transformElems_objs (l : List RawFinding) :
    transformElems (l.map SecretElem.obj) = Except.ok (l.map transformOne) := by
  induction l with
  | nil => rfl
  | cons f rest ih => simp [transformElems, ih, Except.map]

/-- On well-formed result entries the widened forEach never errors and
agrees with the pure one. -/
theorem processResultsJS_embed (l : List ConfigResult) :
    processResultsJS (l.map embedConfigResult) = Except.ok (processResults l) := by
  induction l with
  | nil => rfl
  | cons r rs ih =>
    simp only [List.map_cons, processResultsJS, embedConfigResult]
    match h : r.Misconfigurations with
    | some (m :: ms) => simp [processResults, h, ih, Except.map]
    | some [] => simp [processResults, h, ih]
    | none => simp [processResults, h, ih]

/-! ### The claims -/

/-- C1: for every well-formed config report, `transformConfigScanResponse`
returns a DTO whose `TotalMisconfigurations` equals the total number of
misconfigurations across the report's targets, and no target whose
`Misconfigurations` list is empty or absent appears in the DTO's `Results`
list. -/
theorem transformConfig_total_count_and_exclusion (env : EnvConfig) (tc : TrivyConfig) :
    ∃ dto, transformConfigScanResponse env (some tc) = some dto ∧
      dto.TotalMisconfigurations = inputMisconfigCount tc ∧
      ∀ d ∈ dto.Results, d.Misconfigurations ≠ [] := by
  refine ⟨_, rfl, ?_, ?_⟩
  · exact processResults_total _
  · exact processResults_nonempty _

theorem transformConfig_total_count_and_exclusion_witness :
    inputMisconfigCount exTrivyConfig = 2 ∧
    (∃ dto, transformConfigScanResponse envW1 (some exTrivyConfig) = some dto ∧
      dto.TotalMisconfigurations = inputMisconfigCount exTrivyConfig ∧
      ∀ d ∈ dto.Results, d.Misconfigurations ≠ []) :=
  ⟨by decide, transformConfig_total_count_and_exclusion envW1 exTrivyConfig⟩

/-- C2: secret deduplication is idempotent (transforming the already
transformed and deduplicated list again changes nothing), order-preserving
(the output is a sublist of the mapped input), collapses findings sharing
an identity key to the first-seen occurrence (membership is exactly
`find?` by the key), and on the concrete 5-entry list whose entries 2 and
4 share an identity key the output has exactly 4 entries and retains the
transform of entry 2, not that of entry 4. -/
theorem transformSecret_dedupe_idempotent_first_seen :
    (∀ raws : List RawFinding,
       transformSecretScanResponse
           (some ((transformSecretScanResponse (some raws)).map toRaw)) =
         transformSecretScanResponse (some raws)) ∧
    (∀ raws : List RawFinding,
       List.Sublist (transformSecretScanResponse (some raws)) (raws.map transformOne)) ∧
    (∀ (raws : List RawFinding) (x : SecretFinding),
       x ∈ transformSecretScanResponse (some raws) ↔
         (raws.map transformOne).find? (fun y => secretKey y == secretKey x) = some x) ∧
    ((secretKey (transformOne exSecret2) = secretKey (transformOne exSecret4) ∧
      transformOne exSecret2 ≠ transformOne exSecret4) ∧
     transformSecretScanResponse (some exRawSecrets) =
       [transformOne exSecret1, transformOne exSecret2, transformOne exSecret3,
        transformOne exSecret5] ∧
     (transformSecretScanResponse (some exRawSecrets)).length = 4 ∧
     transformOne exSecret2 ∈ transformSecretScanResponse (some exRawSecrets) ∧
     transformOne exSecret4 ∉ transformSecretScanResponse (some exRawSecrets)) := by
  refine ⟨?_, ?_, ?_, ?_⟩
  · intro raws
    show dedupeAux [] (((dedupeAux [] (raws.map transformOne)).map toRaw).map transformOne) =
      dedupeAux [] (raws.map transformOne)
    rw [List.map_map]
    simp only [Function.comp_def]
    rw [dedupe_map_transform, dedupeAux_idem]
  · intro raws
    exact dedupeAux_sublist _ _
  · intro raws x
    rw [show transformSecretScanResponse (some raws) = dedupeAux [] (raws.map transformOne)
      from rfl, mem_dedupeAux]
    simp
  · decide

theorem transformSecret_dedupe_idempotent_first_seen_witness :
    transformSecretScanResponse
        (some ((transformSecretScanResponse (some exRawSecrets)).map toRaw)) =
      transformSecretScanResponse (some exRawSecrets) :=
  transformSecret_dedupe_idempotent_first_seen.1 exRawSecrets

/-- C3: when all four parsed report entries are null,
`processAndSendReports` fails with `No valid reports found to send` and no
HTTP request value is constructed; when at least one entry is non-null it
proceeds and constructs the upload request from the partial results. -/
theorem processAndSendReports_fails_fast {α : Type} (parse : String → Option α)
    (fs : List (String × String)) (dir apiUrl : String) (env : EnvConfig)
    (boundary : String) (len : Nat) (extra : List (String × String)) :
    (((parseReportFiles parse fs dir).1.sbom = none ∧
      (parseReportFiles parse fs dir).1.trivyConfig = none ∧
      (parseReportFiles parse fs dir).1.trivyVuln = none ∧
      (parseReportFiles parse fs dir).1.gitleaks = none) →
       processAndSendReports parse fs dir apiUrl env boundary len extra =
         Except.error "No valid reports found to send") ∧
    (((parseReportFiles parse fs dir).1.sbom ≠ none ∨
      (parseReportFiles parse fs dir).1.trivyConfig ≠ none ∨
      (parseReportFiles parse fs dir).1.trivyVuln ≠ none ∨
      (parseReportFiles parse fs dir).1.gitleaks ≠ none) →
       processAndSendReports parse fs dir apiUrl env boundary len extra =
         Except.ok (sendToAPIRequest env apiUrl boundary len extra)) := by
  constructor
  · rintro ⟨h1, h2, h3, h4⟩
    have hr : hasReports (parseReportFiles parse fs dir).1 = false := by
      simp [hasReports, h1, h2, h3, h4]
    simp only [processAndSendReports, hr]
    simp
  · intro h
    have hr : hasReports (parseReportFiles parse fs dir).1 = true := by
      rcases h with h | h | h | h <;>
        simp [hasReports, Option.isSome_iff_ne_none, h]
    simp only [processAndSendReports, hr]
    simp

theorem processAndSendReports_fails_fast_witness :
    processAndSendReports (fun s => some s.length : String → Option Nat) [] "out" "https://api" envW1 "b" 0 [] =
      Except.error "No valid reports found to send" ∧
    processAndSendReports (fun s => some s.length : String → Option Nat) [(pathJoin "out" "cyclonedx.json", "7")] "out"
        "https://api" envW1 "b" 0 [] =
      Except.ok (sendToAPIRequest envW1 "https://api" "b" 0 []) :=
  ⟨(processAndSendReports_fails_fast (fun s => some s.length : String → Option Nat) [] "out" "https://api" envW1
      "b" 0 []).1 ⟨rfl, rfl, rfl, rfl⟩,
   (processAndSendReports_fails_fast (fun s => some s.length : String → Option Nat) [(pathJoin "out" "cyclonedx.json", "7")]
      "out" "https://api" envW1 "b" 0 []).2 (Or.inl (by decide))⟩

/-- C4: `sendToAPI` posts to `{endpoint}/open-pulse/project/upload-all`
with no trailing segment exactly when no project id is configured, and to
`{endpoint}/open-pulse/project/upload-all/{projectId}` when one is; in
particular `projectId = "abc-123"` yields the suffix
`/upload-all/abc-123`. (Percent-escaping of unusual characters is done by
the WHATWG URL parser downstream and is outside this model; the literal
test input needs none.) -/
theorem sendToAPI_upload_path (apiUrl : String) (projectId : Option String) :
    (jsTruthyOpt projectId = false →
       fullApiUrl apiUrl projectId = apiUrl ++ "/open-pulse/project/upload-all") ∧
    (∀ p, projectId = some p → p ≠ "" →
       fullApiUrl apiUrl projectId = apiUrl ++ "/open-pulse/project/upload-all/" ++ p) ∧
    fullApiUrl apiUrl (some "abc-123") =
      apiUrl ++ "/open-pulse/project/upload-all/abc-123" := by
  refine ⟨?_, ?_, ?_⟩
  · intro h
    simp [fullApiUrl, h]
  · rintro p rfl hp
    simp [fullApiUrl, jsTruthyOpt, hp]
  · simp [fullApiUrl, jsTruthyOpt, String.append_assoc]

theorem sendToAPI_upload_path_witness :
    fullApiUrl "https://api.example" none =
      "https://api.example/open-pulse/project/upload-all" ∧
    fullApiUrl "https://api.example" (some "abc-123") =
      "https://api.example/open-pulse/project/upload-all/abc-123" :=
  ⟨(sendToAPI_upload_path "https://api.example" none).1 rfl,
   (sendToAPI_upload_path "https://api.example" (some "abc-123")).2.1 "abc-123" rfl
     (by decide)⟩

/-- C5 counterexample: the claimed hyperproperty fails on three conjuncts.
Totality: the source throws on malformed shapes — an array containing
`null` makes the secret transform throw at the `finding.RuleID` access of
line 142, and a truthy non-array `Misconfigurations` (a non-empty string,
whose positive `length` passes the guard of line 103) makes the config
transform throw at the `.map` of line 110. No side effects: with
`DEBUG_MODE` set the secret transform writes a deduplication summary line
to stdout (line 167). Determinism given the input alone: on a report
without an `ArtifactName`, two runs differing only in the ambient
`WORKSPACE` variable produce different outputs (line 126 reads
`process.env.WORKSPACE` and `process.cwd()`). -/
theorem transformers_purity_counterexample :
    transformSecretScanResponseJS (some [SecretElem.jsNull]) =
      Except.error "TypeError: cannot read properties of null reading RuleID" ∧
    transformConfigScanResponseJS envW1 (some cfgStringMisc) =
      Except.error "TypeError: result.Misconfigurations.map is not a function" ∧
    transformSecretScanLog true (some exRawSecrets) ≠ [] ∧
    transformConfigScanResponse envW1 (some cfgNoArtifactName) ≠
      transformConfigScanResponse envW2 (some cfgNoArtifactName) := by
  refine ⟨rfl, rfl, by decide, by decide⟩

/-- C5 amended: the transformers are deterministic given the input, the
ambient `WORKSPACE`/`cwd` state and the `DEBUG_MODE` flag, but none of the
three original conjuncts holds in full. Totality holds only on well-formed
shapes: on object-only secret arrays and on reports whose
`Misconfigurations` fields are absent/falsy or genuine arrays, the widened
JS-faithful transformers return without error and agree with the pure
layer (on the malformed shapes of the counterexample they throw). Freedom
from side effects holds only with `DEBUG_MODE` unset: the secret
transform's stdout log is empty exactly then, is one line per transformed
array otherwise, and the returned value never depends on it; the config
transform writes nothing. Determinism given the input alone holds for the
secret transform (its embedding takes no ambient state), and for the
config transform only outside the `ArtifactName` fallback: with a truthy
`ArtifactName` its whole output is environment-independent, and its
`Results`, `TotalMisconfigurations` and `ArtifactType` components are
environment-independent unconditionally. -/
theorem transformers_deterministic_amended :
    (∀ (e e' : EnvConfig) (tc : TrivyConfig), tc.ArtifactName.truthy = true →
       transformConfigScanResponse e (some tc) = transformConfigScanResponse e' (some tc)) ∧
    (∀ (e e' : EnvConfig) (tc : TrivyConfig),
       (transformConfigScanResponse e (some tc)).map ConfigScanResponseDto.Results =
         (transformConfigScanResponse e' (some tc)).map ConfigScanResponseDto.Results ∧
       (transformConfigScanResponse e (some tc)).map
           ConfigScanResponseDto.TotalMisconfigurations =
         (transformConfigScanResponse e' (some tc)).map
           ConfigScanResponseDto.TotalMisconfigurations ∧
       (transformConfigScanResponse e (some tc)).map ConfigScanResponseDto.ArtifactType =
         (transformConfigScanResponse e' (some tc)).map ConfigScanResponseDto.ArtifactType) ∧
    (∀ l : List RawFinding,
       transformSecretScanResponseJS (some (l.map SecretElem.obj)) =
         Except.ok (transformSecretScanResponse (some l))) ∧
    transformSecretScanResponseJS none = Except.ok [] ∧
    (∀ (env : EnvConfig) (tc : TrivyConfig),
       transformConfigScanResponseJS env (some (embedTrivyConfig tc)) =
         Except.ok (transformConfigScanResponse env (some tc))) ∧
    (∀ env : EnvConfig, transformConfigScanResponseJS env none = Except.ok none) ∧
    (∀ g : Option (List RawFinding), transformSecretScanLog false g = []) ∧
    (∀ l : List RawFinding, (transformSecretScanLog true (some l)).length = 1) ∧
    transformSecretScanLog true none = [] := by
  refine ⟨?_, ?_, ?_, rfl, ?_, ?_, ?_, ?_, rfl⟩
  · intro e e' tc h
    simp [transformConfigScanResponse, ConfigScanResponseDto.mk.injEq, jsOr_of_truthy _ h]
  · intro e e' tc
    exact ⟨rfl, rfl, rfl⟩
  · intro l
    show (transformElems (l.map SecretElem.obj)).map (fun ts => dedupeAux [] ts) = _
    rw [transformElems_objs]
    rfl
  · intro env tc
    cases hres : tc.Results with
    | none =>
      simp [transformConfigScanResponseJS, transformConfigScanResponse, embedTrivyConfig,
        hres, processResultsJS, processResults, Except.map]
    | some l =>
      simp [transformConfigScanResponseJS, transformConfigScanResponse, embedTrivyConfig,
        hres, processResultsJS_embed l, Except.map]
  · intro env
    rfl
  · intro g
    cases g <;> rfl
  · intro l
    rfl

theorem transformers_deterministic_amended_witness :
    transformConfigScanResponse envW1 (some cfgNamedArtifact) =
      transformConfigScanResponse envW2 (some cfgNamedArtifact) ∧
    transformSecretScanResponseJS (some (exRawSecrets.map SecretElem.obj)) =
      Except.ok (transformSecretScanResponse (some exRawSecrets)) :=
  ⟨transformers_deterministic_amended.1 envW1 envW2 cfgNamedArtifact (by decide),
   transformers_deterministic_amended.2.2.1 exRawSecrets⟩

/-- C6: the report aggregator never throws — it is a total function whose
every entry is the parse of the corresponding well-known file when it
exists (`none` when the file is missing or unparseable), and an existing
file that fails to parse contributes an error-log line; in every case a
record of four optional documents is returned. -/
theorem parseReportFiles_never_throws {α : Type} (parse : String → Option α)
    (fs : List (String × String)) (dir : String) :
    ((parseReportFiles parse fs dir).1.sbom =
       (lookupFile fs (pathJoin dir "cyclonedx.json")).bind parse ∧
     (parseReportFiles parse fs dir).1.trivyConfig =
       (lookupFile fs (pathJoin dir "trivy-config-report.json")).bind parse ∧
     (parseReportFiles parse fs dir).1.trivyVuln =
       (lookupFile fs (pathJoin dir "trivy-vuln-report.json")).bind parse ∧
     (parseReportFiles parse fs dir).1.gitleaks =
       (lookupFile fs (pathJoin dir "gitleaks-report.json")).bind parse) ∧
    (∀ key p content, (key, p) ∈ reportFilePaths dir →
       lookupFile fs p = some content → parse content = none →
       ("Error parsing " ++ key ++ " report (" ++ p ++ ")") ∈
         (parseReportFiles parse fs dir).2) := by
  constructor
  · exact ⟨parseOne_fst parse fs "sbom" _, parseOne_fst parse fs "trivyConfig" _,
      parseOne_fst parse fs "trivyVuln" _, parseOne_fst parse fs "gitleaks" _⟩
  · intro key p content hmem h1 h2
    simp only [reportFilePaths, List.mem_cons, List.not_mem_nil, or_false,
      Prod.mk.injEq] at hmem
    show _ ∈ (parseReportFiles parse fs dir).2
    simp only [parseReportFiles]
    rcases hmem with ⟨rfl, rfl⟩ | ⟨rfl, rfl⟩ | ⟨rfl, rfl⟩ | ⟨rfl, rfl⟩ <;>
      rw [parseOne_log parse fs _ _ content h1 h2] <;> simp

theorem parseReportFiles_never_throws_witness :
    (parseReportFiles (fun _ => (none : Option Nat))
        [(pathJoin "out" "cyclonedx.json", "bad")] "out").1.sbom = none ∧
    ("Error parsing " ++ "sbom" ++ " report (" ++ pathJoin "out" "cyclonedx.json" ++ ")") ∈
      (parseReportFiles (fun _ => (none : Option Nat))
        [(pathJoin "out" "cyclonedx.json", "bad")] "out").2 :=
  ⟨by decide,
   (parseReportFiles_never_throws (fun _ => none)
      [(pathJoin "out" "cyclonedx.json", "bad")] "out").2
     "sbom" (pathJoin "out" "cyclonedx.json") "bad" (by decide) (by decide) rfl⟩

/-- C7: in `createFormattedTable`, cell text is truncated to fit within
the column width: the truncated content always has at most `max - 2`
characters (the code's padding allowance), a text longer than the declared
column maximum `max` becomes its first `max - 5` characters followed by
the three-character ellipsis `...` — `max - 2` characters in all — and
such a text forces the computed column width to equal the declared
maximum, so the rendered content never exceeds it. The hypothesis
`5 ≤ max` covers every column width the program declares (they are
8 to 70). -/
theorem createFormattedTable_truncation (t : List Char) (maxw : Int) (h5 : 5 ≤ maxw) :
    ((truncateText t maxw).length : Int) ≤ maxw - 2 ∧
    (maxw < (t.length : Int) →
       truncateText t maxw = t.take (maxw - 5).toNat ++ "...".toList ∧
       ((truncateText t maxw).length : Int) = maxw - 2) ∧
    (∀ (header : List Char) (column : List (List Char)), t ∈ column →
       maxw < (t.length : Int) → computeColWidth header column maxw = maxw) := by
  refine ⟨?_, ?_, ?_⟩
  · unfold truncateText
    by_cases hle : (t.length : Int) ≤ maxw - 2
    · rw [if_pos hle]
      exact hle
    · simp only [if_neg hle]
      have hlen : ("...".toList).length = 3 := by decide
      rw [List.length_append, List.length_take, hlen]
      have hmin : min ((maxw - 2 - 3).toNat) t.length = (maxw - 2 - 3).toNat :=
        Nat.min_eq_left (by omega)
      rw [hmin]
      omega
  · intro hgt
    have hle : ¬((t.length : Int) ≤ maxw - 2) := by omega
    constructor
    · unfold truncateText
      rw [if_neg hle]
      have h25 : maxw - 2 - 3 = maxw - 5 := by omega
      rw [h25]
    · unfold truncateText
      rw [if_neg hle]
      have hlen : ("...".toList).length = 3 := by decide
      rw [List.length_append, List.length_take, hlen]
      have hmin : min ((maxw - 2 - 3).toNat) t.length = (maxw - 2 - 3).toNat :=
        Nat.min_eq_left (by omega)
      rw [hmin]
      omega
  · intro header column hmem hgt
    unfold computeColWidth
    have hrow : (t.length : Int) ≤ (column.map (fun c => (c.length : Int))).foldl max 0 :=
      le_foldl_max _ 0 _ (List.mem_map_of_mem _ hmem)
    have hmax : maxw ≤ max (header.length : Int)
        ((column.map (fun c => (c.length : Int))).foldl max 0) + 2 := by
      have h1 := le_trans (le_of_lt hgt) hrow
      have h2 := le_max_right (header.length : Int)
        ((column.map (fun c => (c.length : Int))).foldl max 0)
      omega
    exact min_eq_right hmax

theorem createFormattedTable_truncation_witness :
    truncateText ("abcdefghijklmnop".toList) 10 = "abcde...".toList ∧
    ((truncateText ("abcdefghijklmnop".toList) 10).length : Int) ≤ 10 - 2 ∧
    (10 < (("abcdefghijklmnop".toList).length : Int) →
       truncateText ("abcdefghijklmnop".toList) 10 =
         ("abcdefghijklmnop".toList).take ((10:Int) - 5).toNat ++ "...".toList ∧
       ((truncateText ("abcdefghijklmnop".toList) 10).length : Int) = 10 - 2) ∧
    (∀ (header : List Char) (column : List (List Char)),
       "abcdefghijklmnop".toList ∈ column →
       10 < (("abcdefghijklmnop".toList).length : Int) →
       computeColWidth header column 10 = 10) :=
  ⟨by decide, createFormattedTable_truncation ("abcdefghijklmnop".toList) 10 (by decide)⟩

/-- C8: output invariant of `transformConfigScanResponse` — for every
non-null input, every element of the returned `Results` carries a
non-empty `Misconfigurations` array, and `TotalMisconfigurations` equals
the sum of the lengths of the `Misconfigurations` arrays over the returned
`Results`. -/
theorem transformConfig_output_invariant (env : EnvConfig) (tc : TrivyConfig) :
    ∃ dto, transformConfigScanResponse env (some tc) = some dto ∧
      (∀ d ∈ dto.Results, d.Misconfigurations ≠ []) ∧
      dto.TotalMisconfigurations =
        (dto.Results.map (fun d => d.Misconfigurations.length)).sum := by
  refine ⟨_, rfl, ?_, ?_⟩
  · exact processResults_nonempty _
  · exact processResults_total_eq_output _

theorem transformConfig_output_invariant_witness :
    ∃ dto, transformConfigScanResponse envW1 (some exTrivyConfig) = some dto ∧
      (∀ d ∈ dto.Results, d.Misconfigurations ≠ []) ∧
      dto.TotalMisconfigurations =
        (dto.Results.map (fun d => d.Misconfigurations.length)).sum :=
  transformConfig_output_invariant envW1 exTrivyConfig

/-- C9: every finding returned by the secret transform has `String`
location fields (by the type of `SecretFinding`), and any falsy raw
location value — absent, the number 0, or an empty string — is mapped to
the string `"0"`; consequently a finding located at line or column 0 is
indistinguishable in the output from one whose location was missing. -/
theorem transformSecret_location_string_coercion (r : RawFinding) (v : JVal)
    (h : v.truthy = false) :
    ((transformOne { r with StartLine := v }).StartLine = "0" ∧
     transformOne { r with StartLine := v } = transformOne { r with StartLine := .undef }) ∧
    ((transformOne { r with EndLine := v }).EndLine = "0" ∧
     transformOne { r with EndLine := v } = transformOne { r with EndLine := .undef }) ∧
    ((transformOne { r with StartColumn := v }).StartColumn = "0" ∧
     transformOne { r with StartColumn := v } =
       transformOne { r with StartColumn := .undef }) ∧
    ((transformOne { r with EndColumn := v }).EndColumn = "0" ∧
     transformOne { r with EndColumn := v } = transformOne { r with EndColumn := .undef }) := by
  refine ⟨⟨?_, ?_⟩, ⟨?_, ?_⟩, ⟨?_, ?_⟩, ⟨?_, ?_⟩⟩ <;>
    simp [transformOne, h, truthy_undef]

theorem transformSecret_location_string_coercion_witness :
    (transformOne { exSecret1 with StartLine := JVal.num 0 }).StartLine = "0" ∧
    transformOne { exSecret1 with StartLine := JVal.num 0 } =
      transformOne { exSecret1 with StartLine := JVal.undef } :=
  (transformSecret_location_string_coercion exSecret1 (JVal.num 0) (by decide)).1

/-- C10: when `NT_API_KEY` (resp. `NT_SECRET_KEY`) is unset, every upload
request `sendToAPI` issues still carries the `x-api-key` (resp.
`x-secret-key`) header with the empty-string value rather than omitting
it, provided the caller-supplied extra headers do not themselves redefine
that key (in this repository they never do: callers pass `{}` or only
`Authorization`). -/
theorem sendToAPI_empty_key_headers (env : EnvConfig) (apiUrl boundary : String)
    (len : Nat) (extra : List (String × String)) :
    (env.NT_API_KEY = none → (∀ e ∈ extra, e.1 ≠ "x-api-key") →
       headerValue (sendToAPIRequest env apiUrl boundary len extra).headers "x-api-key" =
         some "") ∧
    (env.NT_SECRET_KEY = none → (∀ e ∈ extra, e.1 ≠ "x-secret-key") →
       headerValue (sendToAPIRequest env apiUrl boundary len extra).headers "x-secret-key" =
         some "") := by
  constructor
  · intro hk hext
    show headerValue (requestHeaders env boundary len extra) "x-api-key" = some ""
    unfold headerValue requestHeaders
    rw [List.foldl_append]
    rw [headerValue_append_no_key _ extra _ hext, hk]
    rfl
  · intro hk hext
    show headerValue (requestHeaders env boundary len extra) "x-secret-key" = some ""
    unfold headerValue requestHeaders
    rw [List.foldl_append]
    rw [headerValue_append_no_key _ extra _ hext, hk]
    rfl

theorem sendToAPI_empty_key_headers_witness :
    headerValue (sendToAPIRequest envW1 "https://api" "b" 0
        [("Authorization", "Bearer tok")]).headers "x-api-key" = some "" ∧
    headerValue (sendToAPIRequest envW1 "https://api" "b" 0
        [("Authorization", "Bearer tok")]).headers "x-secret-key" = some "" :=
  ⟨(sendToAPI_empty_key_headers envW1 "https://api" "b" 0
      [("Authorization", "Bearer tok")]).1 rfl (by decide),
   (sendToAPI_empty_key_headers envW1 "https://api" "b" 0
      [("Authorization", "Bearer tok")]).2 rfl (by decide)⟩
